import Mathlib

/-!
Verification of the jina hub build/publish/discover pipeline and the
executor helper modules, as a shallow embedding in Lean 4.

The hub pipeline (HubIO facade, ManifestValidator, ImageBuilder,
UsageTester, Publisher, Catalog, Puller) is exercised by the unit tests
in tests/unit/docker/test_hub_build.py; its implementation modules are
not part of the source tree here, so the pipeline is modelled from the
specification (sections 2-7 of spec.md).  The transformer base class is
embedded directly from jina/executors/transformers/__init__.py.
-/

namespace Hub

/-- Modelled from the spec: a Manifest is the structured metadata attached
to one artifact version (spec section 3): name, version, description,
author, vendor, kind, type, keywords. -/
structure Manifest where
  name : String
  version : String
  description : String
  author : String
  vendor : String
  kind : String
  type : String
  keywords : List String
deriving DecidableEq

/-- Modelled from the spec: the failure taxonomy of spec section 7. -/
inductive Failure where
  | manifestMissing
  | manifestInvalid
  | dockerfileMissing
  | dockerfileInvalid
  | moduleInvalid
  | containerStartFailure
  | imageAlreadyExists
  | imageNotFound
  | authenticationFailure
  | networkError
deriving DecidableEq

/-- Modelled from the spec: an image identity is the (namespace, name,
version) tuple uniquely addressing one built artifact (spec section 3). -/
structure Identity where
  ns : String
  name : String
  version : String
deriving DecidableEq

/-- Modelled from the spec: variable substitution performed by the
configuration loader before validation (spec sections 4.1 and 6).  A field
value that is exactly a variable reference of the form dollar-brace NAME
close-brace is replaced by the environment's binding for NAME when one
exists; any other value is kept verbatim. -/
def substVar (env : List (String × String)) (s : String) : String :=
  match s.data with
  | '$' :: '\x7b' :: rest =>
    if rest.getLast? = some '\x7d' then
      match env.find? (fun p => p.fst == String.mk rest.dropLast) with
      | some p => p.snd
      | none => s
    else s
  | _ => s

/-- Modelled from the spec: substitution-expansion of a whole manifest,
applied field by field (spec section 4.1). -/
def expandManifest (env : List (String × String)) (m : Manifest) : Manifest :=
  { name := substVar env m.name
    version := substVar env m.version
    description := substVar env m.description
    author := substVar env m.author
    vendor := substVar env m.vendor
    kind := substVar env m.kind
    type := substVar env m.type
    keywords := m.keywords.map (substVar env) }

/-- Modelled from the spec: the caller-supplied artifact directory (spec
section 3), abstracted to the observable facts the pipeline checks: whether
the build recipe and the metadata file are present and well-formed, the raw
(pre-substitution) manifest, whether the entry modules survive the build
toolchain, and whether a container started from the image reaches a ready
state. -/
structure ArtifactDir where
  hasDockerfile : Bool
  dockerfileValid : Bool
  hasManifest : Bool
  manifestValid : Bool
  rawManifest : Manifest
  modulesBuildOk : Bool
  startsOk : Bool
deriving DecidableEq

/-- Modelled from the spec: a CatalogEntry is a published manifest plus its
image identity, publish timestamp and optional host metadata (spec
sections 3 and 4.4). -/
structure CatalogEntry where
  identity : Identity
  manifest : Manifest
  timestamp : Nat
  hostInfo : Bool
deriving DecidableEq

/-- Modelled from the spec: the invocation flags of a build (spec
section 4.2). -/
structure BuildArgs where
  push : Bool
  testUses : Bool
  daemon : Bool
  raiseError : Bool
  hostInfo : Bool
  noOverwrite : Bool
deriving DecidableEq

/-- Modelled from the spec: the BuildSummary returned by a build (spec
sections 3 and 6). -/
structure BuildSummary where
  is_build_success : Bool
  version : String
  manifest_info : Option Manifest
  failure_reason : Option Failure
deriving DecidableEq

/-- Modelled from the spec: the full observable outcome of one build
invocation: the summary (or the typed error raised under raiseError), the
catalog after the call, whether an image object was produced, and whether a
push was attempted. -/
structure BuildOutcome where
  summary : Except Failure BuildSummary
  catalog : List CatalogEntry
  imageProduced : Bool
  pushAttempted : Bool

/-- Modelled from the spec: catalog lookup-by-identity used by the
Publisher conflict check (spec section 4.4 step 1). -/
def hasIdentity (cat : List CatalogEntry) (id : Identity) : Bool :=
  cat.any (fun e => decide (e.identity = id))

/-- Modelled from the spec: upsert of a CatalogEntry, replacing any prior
entry at the same identity and placing the new entry most-recent-first
(spec sections 3, 4.4 step 4 and 4.5). -/
def upsert (cat : List CatalogEntry) (e : CatalogEntry) : List CatalogEntry :=
  e :: cat.filter (fun x => !decide (x.identity = e.identity))

/-- Modelled from the spec: the Publisher (spec section 4.4).  Returns the
catalog after the call together with whether a push was attempted; a
conflict under noOverwrite fails with imageAlreadyExists before any push. -/
def publish (cat : List CatalogEntry) (e : CatalogEntry) (noOverwrite : Bool) :
    Except Failure (List CatalogEntry) × Bool :=
  if noOverwrite && hasIdentity cat e.identity then
    (Except.error Failure.imageAlreadyExists, false)
  else
    (Except.ok (upsert cat e), true)

/-- Modelled from the spec: the Catalog search path (spec section 4.5):
conjunctive filters, exact match on name and type, any-of match on
keywords; no filter matches everything. -/
def matchesFilters (nameF : Option String) (kwF : Option (List String))
    (typeF : Option String) (e : CatalogEntry) : Bool :=
  (match nameF with
   | none => true
   | some n => e.manifest.name == n) &&
  (match kwF with
   | none => true
   | some ks => ks.any (fun k => e.manifest.keywords.contains k)) &&
  (match typeF with
   | none => true
   | some t => e.manifest.type == t)

/-- Modelled from the spec: the list operation of spec sections 4.5 and 6,
returning all entries matching every supplied filter, in catalog order
(most recently published first). -/
def list (cat : List CatalogEntry) (nameF : Option String)
    (kwF : Option (List String)) (typeF : Option String) : List CatalogEntry :=
  cat.filter (matchesFilters nameF kwF typeF)

/-- Modelled from the spec: the validate-and-build front of the pipeline
(spec section 4.2 steps 1-3): recipe presence, manifest presence and
validity, toolchain acceptance of the recipe, and entry modules loading at
build time; on success the substitution-expanded manifest is produced. -/
def validateAndBuild (env : List (String × String)) (dir : ArtifactDir) :
    Except Failure Manifest :=
  if dir.hasDockerfile = false then Except.error Failure.dockerfileMissing
  else if dir.hasManifest = false then Except.error Failure.manifestMissing
  else if dir.manifestValid = false then Except.error Failure.manifestInvalid
  else if dir.dockerfileValid = false then Except.error Failure.dockerfileInvalid
  else if dir.modulesBuildOk = false then Except.error Failure.moduleInvalid
  else Except.ok (expandManifest env dir.rawManifest)

/-- Modelled from the spec: the UsageTester (spec section 4.3): starting a
container from the built image succeeds exactly when the packaged plugin
initializes correctly, in foreground as in daemon mode. -/
def usageTest (dir : ArtifactDir) (_daemon : Bool) : Bool :=
  dir.startsOk

/-- Modelled from the spec: image identity computed from the namespace plus
the manifest's name and version (spec section 4.2 step 4). -/
def mkIdentity (ns : String) (m : Manifest) : Identity :=
  { ns := ns, name := m.name, version := m.version }

/-- Modelled from the spec: the successful BuildSummary assembled at the
end of the pipeline (spec section 4.2 step 7). -/
def successSummary (m : Manifest) : BuildSummary :=
  { is_build_success := true
    version := m.version
    manifest_info := some m
    failure_reason := none }

/-- Modelled from the spec: the failing BuildSummary carrying the failure
reason (spec sections 3 and 7). -/
def failSummary (f : Failure) : BuildSummary :=
  { is_build_success := false
    version := ""
    manifest_info := none
    failure_reason := some f }

/-- Modelled from the spec: the propagation policy (spec section 7): a
failure is embedded in a returned summary by default, and raised as a typed
error when raiseError is set. -/
def mkFail (args : BuildArgs) (f : Failure) : Except Failure BuildSummary :=
  if args.raiseError then Except.error f else Except.ok (failSummary f)

/-- Modelled from the spec: the build pipeline of the HubIO facade (spec
section 4.2): validate and build, then optionally usage-test, then
optionally publish, assembling a single BuildOutcome. -/
def build (env : List (String × String)) (ns : String) (dir : ArtifactDir)
    (args : BuildArgs) (cat : List CatalogEntry) (now : Nat) : BuildOutcome :=
  match validateAndBuild env dir with
  | Except.error f =>
    { summary := mkFail args f, catalog := cat
      imageProduced := false, pushAttempted := false }
  | Except.ok m =>
    if args.testUses && !usageTest dir args.daemon then
      { summary := mkFail args Failure.containerStartFailure, catalog := cat
        imageProduced := true, pushAttempted := false }
    else if args.push then
      match publish cat
          { identity := mkIdentity ns m, manifest := m
            timestamp := now, hostInfo := args.hostInfo } args.noOverwrite with
      | (Except.error f, att) =>
        { summary := mkFail args f, catalog := cat
          imageProduced := true, pushAttempted := att }
      | (Except.ok cat2, att) =>
        { summary := Except.ok (successSummary m), catalog := cat2
          imageProduced := true, pushAttempted := att }
    else
      { summary := Except.ok (successSummary m), catalog := cat
        imageProduced := true, pushAttempted := false }

/-- Modelled from the spec: grouping of a character list at dot
separators, for semantic-version parsing. -/
def splitDots : List Char → List (List Char)
  | [] => [[]]
  | c :: cs =>
    if c = '.' then [] :: splitDots cs
    else
      match splitDots cs with
      | [] => [[c]]
      | g :: gs => (c :: g) :: gs

/-- Modelled from the spec: decimal digits read as a natural number. -/
def digitsToNat (cs : List Char) : Nat :=
  cs.foldl (fun n c => 10 * n + (c.toNat - 48)) 0

/-- Modelled from the spec: a semantic version string parsed into its
dot-separated numeric components (spec sections 3 and 4.6). -/
def parseSemver (s : String) : List Nat :=
  (splitDots s.data).map digitsToNat

/-- Modelled from the spec: lexicographic comparison of parsed version
component lists, a shorter list reading as lower. -/
def verLe : List Nat → List Nat → Bool
  | [], _ => true
  | _ :: _, [] => false
  | a :: as, b :: bs =>
    if a < b then true
    else if b < a then false
    else verLe as bs

/-- Modelled from the spec: semantic-version comparison on version
strings (spec section 4.6). -/
def semverLe (a b : String) : Bool :=
  verLe (parseSemver a) (parseSemver b)

/-- Modelled from the spec: resolution of the highest published semantic
version among candidate entries (spec section 4.6). -/
def pickLatest : List CatalogEntry → Option CatalogEntry
  | [] => none
  | e :: rest =>
    match pickLatest rest with
    | none => some e
    | some best =>
      if semverLe e.manifest.version best.manifest.version then some best
      else some e

/-- Modelled from the spec: the Puller (spec section 4.6): with a version,
exact resolution; without, resolution to the highest semantic version
published under the name; imageNotFound when no entry exists. -/
def pull (cat : List CatalogEntry) (name : String) (reqVersion : Option String) :
    Except Failure CatalogEntry :=
  let cands := cat.filter (fun e => e.manifest.name == name)
  match reqVersion with
  | some v =>
    match cands.find? (fun e => e.manifest.version == v) with
    | some e => Except.ok e
    | none => Except.error Failure.imageNotFound
  | none =>
    match pickLatest cands with
    | some e => Except.ok e
    | none => Except.error Failure.imageNotFound

end Hub

namespace Transformers

/-- Embedding of BaseTransformer from
jina/executors/transformers/__init__.py: the observable state established
by its constructor.  required_keys holds the argument names of the
instance's transform method with the receiver excluded; warned records
whether the empty-keys warning was emitted. -/
structure BaseTransformer where
  required_keys : List String
  warned : Bool
deriving DecidableEq

/-- Embedding of BaseTransformer.__init__: required_keys is the set of
argument names of self.transform with the name self removed, and when that
set is empty a warning is logged; construction always completes. -/
def init (transformArgs : List String) : BaseTransformer :=
  let ks := transformArgs.filter (fun k => decide (k ≠ "self"))
  { required_keys := ks, warned := ks.isEmpty }

end Transformers

namespace Jaml

/-- Modelled from the spec: the error the structured-configuration loader
raises when a yaml tag resolves to no registered constructor. -/
inductive LoadError where
  | constructorError
deriving DecidableEq

/-- Modelled from the spec: an executor instance produced by the loader,
observable through the name of its class. -/
structure LoadedExecutor where
  className : String
deriving DecidableEq

/-- Modelled from the spec: the structured-configuration loader consumed at
the interface boundary (spec sections 1 and 6), specialised to external
executor classes as exercised by tests/test_load_yaml.py: a configuration
whose tag names a registered class constructs an instance of that class; an
unregistered tag fails with a constructor error. -/
def load_config (registry : List String) (tag : String) :
    Except LoadError LoadedExecutor :=
  if tag ∈ registry then Except.ok { className := tag }
  else Except.error LoadError.constructorError

end Jaml

namespace Hub

theorem mkFail_ok {args : BuildArgs} {f : Failure} {s : BuildSummary}
    (h : mkFail args f = Except.ok s) :
    s = failSummary f ∧ args.raiseError = false := by
  unfold mkFail at h
  by_cases hr : args.raiseError = true
  · simp [hr] at h
  · simp only [Bool.not_eq_true] at hr
    simp [hr] at h
    exact ⟨h.symm, hr⟩

theorem mkFail_error {args : BuildArgs} {f g : Failure}
    (h : mkFail args f = Except.error g) :
    g = f ∧ args.raiseError = true := by
  unfold mkFail at h
  by_cases hr : args.raiseError = true
  · simp [hr] at h
    exact ⟨h.symm, hr⟩
  · simp only [Bool.not_eq_true] at hr
    simp [hr] at h

theorem validateAndBuild_ok {env : List (String × String)} {dir : ArtifactDir}
    {m : Manifest} (h : validateAndBuild env dir = Except.ok m) :
    m = expandManifest env dir.rawManifest ∧ dir.hasDockerfile = true ∧
    dir.hasManifest = true ∧ dir.manifestValid = true ∧
    dir.dockerfileValid = true ∧ dir.modulesBuildOk = true := by
  unfold validateAndBuild at h
  split_ifs at h with h1 h2 h3 h4 h5
  simp_all

theorem build_validateErr {env : List (String × String)} {ns : String}
    {dir : ArtifactDir} {args : BuildArgs} {cat : List CatalogEntry} {now : Nat}
    {f : Failure} (h : validateAndBuild env dir = Except.error f) :
    build env ns dir args cat now =
      { summary := mkFail args f, catalog := cat
        imageProduced := false, pushAttempted := false } := by
  unfold build
  rw [h]

theorem usageGuard_false {dir : ArtifactDir} {args : BuildArgs}
    (htest : args.testUses = true → dir.startsOk = true) :
    (args.testUses && !usageTest dir args.daemon) = false := by
  cases ht : args.testUses with
  | false => simp
  | true => simp [usageTest, htest ht]

theorem build_startFail {env : List (String × String)} {ns : String}
    {dir : ArtifactDir} {args : BuildArgs} {cat : List CatalogEntry} {now : Nat}
    {m : Manifest} (h : validateAndBuild env dir = Except.ok m)
    (ht : args.testUses = true) (hs : dir.startsOk = false) :
    build env ns dir args cat now =
      { summary := mkFail args Failure.containerStartFailure, catalog := cat
        imageProduced := true, pushAttempted := false } := by
  unfold build
  rw [h]
  simp [ht, hs, usageTest]

theorem build_noPush {env : List (String × String)} {ns : String}
    {dir : ArtifactDir} {args : BuildArgs} {cat : List CatalogEntry} {now : Nat}
    {m : Manifest} (h : validateAndBuild env dir = Except.ok m)
    (htest : args.testUses = true → dir.startsOk = true)
    (hp : args.push = false) :
    build env ns dir args cat now =
      { summary := Except.ok (successSummary m), catalog := cat
        imageProduced := true, pushAttempted := false } := by
  unfold build
  rw [h]
  simp [usageGuard_false htest, hp]

theorem build_pushConflict {env : List (String × String)} {ns : String}
    {dir : ArtifactDir} {args : BuildArgs} {cat : List CatalogEntry} {now : Nat}
    {m : Manifest} (h : validateAndBuild env dir = Except.ok m)
    (htest : args.testUses = true → dir.startsOk = true)
    (hp : args.push = true) (hno : args.noOverwrite = true)
    (hin : hasIdentity cat (mkIdentity ns m) = true) :
    build env ns dir args cat now =
      { summary := mkFail args Failure.imageAlreadyExists, catalog := cat
        imageProduced := true, pushAttempted := false } := by
  unfold build
  rw [h]
  simp [usageGuard_false htest, hp, publish, hno, hin]

theorem guard_true_elim {dir : ArtifactDir} {args : BuildArgs}
    (hg : (args.testUses && !usageTest dir args.daemon) = true) :
    args.testUses = true ∧ dir.startsOk = false := by
  rw [Bool.and_eq_true] at hg
  refine ⟨hg.1, ?_⟩
  have := hg.2
  simp [usageTest] at this
  exact this

theorem guard_false_elim {dir : ArtifactDir} {args : BuildArgs}
    (hg : ¬(args.testUses && !usageTest dir args.daemon) = true) :
    args.testUses = true → dir.startsOk = true := by
  intro ht
  simp [ht, usageTest] at hg
  exact hg

theorem build_pushOk {env : List (String × String)} {ns : String}
    {dir : ArtifactDir} {args : BuildArgs} {cat : List CatalogEntry} {now : Nat}
    {m : Manifest} (h : validateAndBuild env dir = Except.ok m)
    (htest : args.testUses = true → dir.startsOk = true)
    (hp : args.push = true)
    (hfree : (args.noOverwrite && hasIdentity cat (mkIdentity ns m)) = false) :
    build env ns dir args cat now =
      { summary := Except.ok (successSummary m)
        catalog := upsert cat
          { identity := mkIdentity ns m, manifest := m
            timestamp := now, hostInfo := args.hostInfo }
        imageProduced := true, pushAttempted := true } := by
  unfold build
  rw [h]
  simp [usageGuard_false htest, hp, publish, hfree]

theorem build_cases (env : List (String × String)) (ns : String)
    (dir : ArtifactDir) (args : BuildArgs) (cat : List CatalogEntry) (now : Nat) :
    (∃ f, (build env ns dir args cat now).summary = mkFail args f ∧
      (build env ns dir args cat now).catalog = cat) ∨
    (build env ns dir args cat now).summary =
      Except.ok (successSummary (expandManifest env dir.rawManifest)) := by
  cases hval : validateAndBuild env dir with
  | error f =>
    left
    exact ⟨f, by rw [build_validateErr hval], by rw [build_validateErr hval]⟩
  | ok m =>
    obtain ⟨hm, -, -, -, -, -⟩ := validateAndBuild_ok hval
    subst hm
    by_cases hg : (args.testUses && !usageTest dir args.daemon) = true
    · obtain ⟨ht, hs0⟩ := guard_true_elim hg
      left
      exact ⟨Failure.containerStartFailure,
        by rw [build_startFail hval ht hs0],
        by rw [build_startFail hval ht hs0]⟩
    · have htest := guard_false_elim hg
      by_cases hp : args.push = true
      · by_cases hc :
          (args.noOverwrite && hasIdentity cat
            (mkIdentity ns (expandManifest env dir.rawManifest))) = true
        · rw [Bool.and_eq_true] at hc
          left
          exact ⟨Failure.imageAlreadyExists,
            by rw [build_pushConflict hval htest hp hc.1 hc.2],
            by rw [build_pushConflict hval htest hp hc.1 hc.2]⟩
        · simp only [Bool.not_eq_true] at hc
          right
          rw [build_pushOk hval htest hp hc]
      · simp only [Bool.not_eq_true] at hp
        right
        rw [build_noPush hval htest hp]

/-- C1: for every valid artifact directory, a successful build returns a
BuildSummary with is_build_success true, version equal to the manifest's
version field, and manifest_info whose description, author, kind, type,
vendor and keywords fields equal, field by field, the
substitution-expanded source manifest's fields. -/
theorem build_roundtrip (env : List (String × String)) (ns : String)
    (dir : ArtifactDir) (args : BuildArgs) (cat : List CatalogEntry) (now : Nat)
    (s : BuildSummary)
    (hok : (build env ns dir args cat now).summary = Except.ok s)
    (hsucc : s.is_build_success = true) :
    s.version = (expandManifest env dir.rawManifest).version ∧
    ∃ mi, s.manifest_info = some mi ∧
      mi.description = (expandManifest env dir.rawManifest).description ∧
      mi.author = (expandManifest env dir.rawManifest).author ∧
      mi.kind = (expandManifest env dir.rawManifest).kind ∧
      mi.type = (expandManifest env dir.rawManifest).type ∧
      mi.vendor = (expandManifest env dir.rawManifest).vendor ∧
      mi.keywords = (expandManifest env dir.rawManifest).keywords := by
  rcases build_cases env ns dir args cat now with ⟨f, hf, -⟩ | hs
  · rw [hf] at hok
    obtain ⟨hsf, -⟩ := mkFail_ok hok
    rw [hsf] at hsucc
    simp [failSummary] at hsucc
  · rw [hs] at hok
    have : successSummary (expandManifest env dir.rawManifest) = s :=
      Except.ok.inj hok
    subst this
    exact ⟨rfl, expandManifest env dir.rawManifest,
      rfl, rfl, rfl, rfl, rfl, rfl, rfl⟩

/-- C3: with raiseError unset, every failure of any pipeline step is
captured in the returned BuildSummary (is_build_success false with the
failure reason available) and no error escapes; with raiseError set, any
returned summary is a full success, failures being raised as typed errors
instead, and a raised failure leaves the catalog unchanged. -/
theorem build_propagation (env : List (String × String)) (ns : String)
    (dir : ArtifactDir) (args : BuildArgs) (cat : List CatalogEntry) (now : Nat) :
    (args.raiseError = false →
      ∃ s, (build env ns dir args cat now).summary = Except.ok s ∧
        (s.is_build_success = false → s.failure_reason.isSome = true)) ∧
    (args.raiseError = true →
      ∀ s, (build env ns dir args cat now).summary = Except.ok s →
        s.is_build_success = true ∧ s.failure_reason = none) ∧
    (∀ f, (build env ns dir args cat now).summary = Except.error f →
      args.raiseError = true ∧ (build env ns dir args cat now).catalog = cat) := by
  refine ⟨?_, ?_, ?_⟩
  · intro hre
    rcases build_cases env ns dir args cat now with ⟨f, hf, -⟩ | hs
    · refine ⟨failSummary f, ?_, ?_⟩
      · rw [hf]
        simp [mkFail, hre]
      · intro _
        simp [failSummary]
    · exact ⟨successSummary (expandManifest env dir.rawManifest), hs,
        fun h => by simp [successSummary] at h⟩
  · intro hre s hok
    rcases build_cases env ns dir args cat now with ⟨f, hf, -⟩ | hs
    · rw [hf] at hok
      simp [mkFail, hre] at hok
    · rw [hs] at hok
      have := Except.ok.inj hok
      subst this
      exact ⟨rfl, rfl⟩
  · intro f herr
    rcases build_cases env ns dir args cat now with ⟨g, hg, hcat⟩ | hs
    · rw [hg] at herr
      exact ⟨(mkFail_error herr).2, hcat⟩
    · rw [hs] at herr
      simp at herr

/-- C4: a build without push on an unchanged directory is idempotent: if
the first call succeeds, a second call on the resulting state succeeds
with the same summary, whatever the daemon flag, and neither call attempts
a push. -/
theorem build_idempotent (env : List (String × String)) (ns : String)
    (dir : ArtifactDir) (args : BuildArgs) (cat : List CatalogEntry)
    (now now2 : Nat) (s1 : BuildSummary)
    (hp : args.push = false)
    (h1 : (build env ns dir args cat now).summary = Except.ok s1)
    (hs1 : s1.is_build_success = true) :
    (build env ns dir args (build env ns dir args cat now).catalog now2).summary
      = Except.ok s1 ∧
    (build env ns dir args cat now).pushAttempted = false ∧
    (build env ns dir args
      (build env ns dir args cat now).catalog now2).pushAttempted = false := by
  cases hval : validateAndBuild env dir with
  | error f =>
    rw [build_validateErr hval] at h1
    obtain ⟨hsf, -⟩ := mkFail_ok h1
    rw [hsf] at hs1
    simp [failSummary] at hs1
  | ok m =>
    by_cases hg : (args.testUses && !usageTest dir args.daemon) = true
    · obtain ⟨ht, hs0⟩ := guard_true_elim hg
      rw [build_startFail hval ht hs0] at h1
      obtain ⟨hsf, -⟩ := mkFail_ok h1
      rw [hsf] at hs1
      simp [failSummary] at hs1
    · have htest := guard_false_elim hg
      have hb1 := @build_noPush env ns dir args cat now m hval htest hp
      have hb2 := @build_noPush env ns dir args cat now2 m hval htest hp
      have hcat : (build env ns dir args cat now).catalog = cat := by rw [hb1]
      rw [hb1] at h1
      refine ⟨?_, ?_, ?_⟩
      · rw [hcat, hb2]
        exact h1
      · rw [hb1]
      · rw [hcat, hb2]

/-- C2: a build with push and noOverwrite set, whose image identity is
already present in the catalog, fails with imageAlreadyExists (raised when
raiseError is set, embedded in the summary otherwise), attempts no push,
and leaves the catalog unchanged, so a subsequent list filtered by the
name returns exactly what it returned before. -/
theorem build_noOverwrite_conflict (env : List (String × String)) (ns : String)
    (dir : ArtifactDir) (args : BuildArgs) (cat : List CatalogEntry) (now : Nat)
    (m : Manifest)
    (hval : validateAndBuild env dir = Except.ok m)
    (htest : args.testUses = true → dir.startsOk = true)
    (hp : args.push = true) (hno : args.noOverwrite = true)
    (hin : hasIdentity cat (mkIdentity ns m) = true) :
    (args.raiseError = true →
      (build env ns dir args cat now).summary =
        Except.error Failure.imageAlreadyExists) ∧
    (args.raiseError = false →
      (build env ns dir args cat now).summary =
        Except.ok (failSummary Failure.imageAlreadyExists)) ∧
    (build env ns dir args cat now).pushAttempted = false ∧
    (build env ns dir args cat now).catalog = cat ∧
    list (build env ns dir args cat now).catalog (some m.name) none none =
      list cat (some m.name) none none := by
  have hb := @build_pushConflict env ns dir args cat now m hval htest hp hno hin
  refine ⟨?_, ?_, ?_, ?_, ?_⟩
  · intro hre
    rw [hb]
    simp [mkFail, hre]
  · intro hre
    rw [hb]
    simp [mkFail, hre]
  · rw [hb]
  · rw [hb]
  · rw [hb]

/-- C6: each of the four invalid artifact categories — missing build
recipe, missing manifest, invalid build recipe, invalid entry module
detected at build time — yields a returned summary with is_build_success
false carrying the corresponding failure reason, and no image is
produced. -/
theorem build_failures (env : List (String × String)) (ns : String)
    (dir : ArtifactDir) (args : BuildArgs) (cat : List CatalogEntry) (now : Nat)
    (hre : args.raiseError = false) :
    (dir.hasDockerfile = false →
      (build env ns dir args cat now).summary =
        Except.ok (failSummary Failure.dockerfileMissing) ∧
      (build env ns dir args cat now).imageProduced = false) ∧
    (dir.hasDockerfile = true → dir.hasManifest = false →
      (build env ns dir args cat now).summary =
        Except.ok (failSummary Failure.manifestMissing) ∧
      (build env ns dir args cat now).imageProduced = false) ∧
    (dir.hasDockerfile = true → dir.hasManifest = true →
     dir.manifestValid = true → dir.dockerfileValid = false →
      (build env ns dir args cat now).summary =
        Except.ok (failSummary Failure.dockerfileInvalid) ∧
      (build env ns dir args cat now).imageProduced = false) ∧
    (dir.hasDockerfile = true → dir.hasManifest = true →
     dir.manifestValid = true → dir.dockerfileValid = true →
     dir.modulesBuildOk = false →
      (build env ns dir args cat now).summary =
        Except.ok (failSummary Failure.moduleInvalid) ∧
      (build env ns dir args cat now).imageProduced = false) := by
  refine ⟨?_, ?_, ?_, ?_⟩
  · intro h1
    have hv : validateAndBuild env dir = Except.error Failure.dockerfileMissing := by
      unfold validateAndBuild
      simp [h1]
    rw [build_validateErr hv]
    simp [mkFail, hre]
  · intro h1 h2
    have hv : validateAndBuild env dir = Except.error Failure.manifestMissing := by
      unfold validateAndBuild
      simp [h1, h2]
    rw [build_validateErr hv]
    simp [mkFail, hre]
  · intro h1 h2 h3 h4
    have hv : validateAndBuild env dir = Except.error Failure.dockerfileInvalid := by
      unfold validateAndBuild
      simp [h1, h2, h3, h4]
    rw [build_validateErr hv]
    simp [mkFail, hre]
  · intro h1 h2 h3 h4 h5
    have hv : validateAndBuild env dir = Except.error Failure.moduleInvalid := by
      unfold validateAndBuild
      simp [h1, h2, h3, h4, h5]
    rw [build_validateErr hv]
    simp [mkFail, hre]

/-- C7: a directory that builds (valid recipe and manifest) but whose
image fails to start builds successfully when testUses is absent, and
fails with containerStartFailure when testUses is set, while the image
object itself exists: build success and usage-test success are
independent. -/
theorem build_testUses_independent (env : List (String × String)) (ns : String)
    (dir : ArtifactDir) (args1 args2 : BuildArgs) (cat : List CatalogEntry)
    (now1 now2 : Nat) (m : Manifest)
    (hval : validateAndBuild env dir = Except.ok m)
    (hstart : dir.startsOk = false)
    (h1t : args1.testUses = false) (h1p : args1.push = false)
    (h2t : args2.testUses = true) (h2re : args2.raiseError = false) :
    (∃ s, (build env ns dir args1 cat now1).summary = Except.ok s ∧
      s.is_build_success = true) ∧
    (∃ s, (build env ns dir args2 cat now2).summary = Except.ok s ∧
      s.is_build_success = false ∧
      s.failure_reason = some Failure.containerStartFailure) ∧
    (build env ns dir args2 cat now2).imageProduced = true := by
  have htest1 : args1.testUses = true → dir.startsOk = true := by
    intro ht
    rw [h1t] at ht
    exact absurd ht (by simp)
  have hb1 := @build_noPush env ns dir args1 cat now1 m hval htest1 h1p
  have hb2 := @build_startFail env ns dir args2 cat now2 m hval h2t hstart
  refine ⟨⟨successSummary m, ?_, rfl⟩,
    ⟨failSummary Failure.containerStartFailure, ?_, rfl, rfl⟩, ?_⟩
  · rw [hb1]
  · rw [hb2]
    simp [mkFail, h2re]
  · rw [hb2]

theorem filterSelf_of_upsert (c : List CatalogEntry) (e : CatalogEntry) :
    (list (upsert c e) (some e.manifest.name) none none).filter
      (fun x => decide (x.identity = e.identity)) = [e] := by
  have h2 : ((c.filter (fun x => !decide (x.identity = e.identity))).filter
      (matchesFilters (some e.manifest.name) none none)).filter
      (fun x => decide (x.identity = e.identity)) = [] := by
    rw [List.filter_eq_nil_iff]
    intro x hx
    have hq := List.mem_filter.mp (List.mem_filter.mp hx).1
    simpa using hq.2
  simp only [list, upsert]
  simp [matchesFilters, List.filter_cons, h2]
  exact fun a _ h _ => h

/-- C5: pushing the same image identity twice without noOverwrite succeeds
both times, and a list filtered by the name afterwards holds exactly one
entry at that identity, carrying the pushed manifest, hence matching its
name, keywords and type. -/
theorem publish_idempotent (env : List (String × String)) (ns : String)
    (dir : ArtifactDir) (args : BuildArgs) (cat : List CatalogEntry)
    (now1 now2 : Nat) (m : Manifest)
    (hval : validateAndBuild env dir = Except.ok m)
    (htest : args.testUses = true → dir.startsOk = true)
    (hp : args.push = true) (hno : args.noOverwrite = false) :
    (build env ns dir args cat now1).summary = Except.ok (successSummary m) ∧
    (successSummary m).is_build_success = true ∧
    (build env ns dir args
      (build env ns dir args cat now1).catalog now2).summary =
        Except.ok (successSummary m) ∧
    ((list (build env ns dir args
        (build env ns dir args cat now1).catalog now2).catalog
        (some m.name) none none).filter
        (fun x => decide (x.identity = mkIdentity ns m))) =
      [{ identity := mkIdentity ns m, manifest := m
         timestamp := now2, hostInfo := args.hostInfo }] ∧
    ∀ x ∈ ((list (build env ns dir args
        (build env ns dir args cat now1).catalog now2).catalog
        (some m.name) none none).filter
        (fun x => decide (x.identity = mkIdentity ns m))),
      x.manifest.name = m.name ∧ x.manifest.keywords = m.keywords ∧
      x.manifest.type = m.type := by
  have hfree1 : (args.noOverwrite && hasIdentity cat (mkIdentity ns m)) = false := by
    simp [hno]
  have hb1 := @build_pushOk env ns dir args cat now1 m hval htest hp hfree1
  have hfree2 : (args.noOverwrite &&
      hasIdentity (build env ns dir args cat now1).catalog
        (mkIdentity ns m)) = false := by
    simp [hno]
  have hb2 := @build_pushOk env ns dir args
    ((build env ns dir args cat now1).catalog) now2 m hval htest hp hfree2
  have hcat2 : (build env ns dir args
      (build env ns dir args cat now1).catalog now2).catalog =
      upsert (build env ns dir args cat now1).catalog
        { identity := mkIdentity ns m, manifest := m
          timestamp := now2, hostInfo := args.hostInfo } := by
    rw [hb2]
  have hsingle : ((list (build env ns dir args
      (build env ns dir args cat now1).catalog now2).catalog
      (some m.name) none none).filter
      (fun x => decide (x.identity = mkIdentity ns m))) =
      [{ identity := mkIdentity ns m, manifest := m
         timestamp := now2, hostInfo := args.hostInfo }] := by
    rw [hcat2]
    exact filterSelf_of_upsert ((build env ns dir args cat now1).catalog)
      { identity := mkIdentity ns m, manifest := m
        timestamp := now2, hostInfo := args.hostInfo }
  refine ⟨?_, rfl, ?_, hsingle, ?_⟩
  · rw [hb1]
  · rw [hb2]
  · intro x hx
    rw [hsingle] at hx
    simp at hx
    rw [hx]
    exact ⟨rfl, rfl, rfl⟩

theorem verLe_refl (a : List Nat) : verLe a a = true := by
  induction a with
  | nil => rfl
  | cons x xs ih => simp [verLe, ih]

theorem verLe_total (a b : List Nat) : verLe a b = true ∨ verLe b a = true := by
  induction a generalizing b with
  | nil => left; rfl
  | cons x xs ih =>
    cases b with
    | nil => right; rfl
    | cons y ys =>
      by_cases h1 : x < y
      · left
        simp [verLe, h1]
      · by_cases h2 : y < x
        · right
          simp [verLe, h2]
        · rcases ih ys with h | h
          · left
            simp [verLe, h1, h2, h]
          · right
            simp [verLe, h1, h2, h]

theorem verLe_trans {a b c : List Nat} (h1 : verLe a b = true)
    (h2 : verLe b c = true) : verLe a c = true := by
  induction a generalizing b c with
  | nil => rfl
  | cons x xs ih =>
    cases b with
    | nil => simp [verLe] at h1
    | cons y ys =>
      cases c with
      | nil => simp [verLe] at h2
      | cons z zs =>
        simp only [verLe] at h1 h2 ⊢
        by_cases hxy : x < y
        · by_cases hyz : y < z
          · have hxz : x < z := lt_trans hxy hyz
            simp [hxz]
          · by_cases hzy : z < y
            · simp [hyz, hzy] at h2
            · have hxz : x < z := by omega
              simp [hxz]
        · by_cases hyx : y < x
          · simp [hxy, hyx] at h1
          · simp [hxy, hyx] at h1
            by_cases hyz : y < z
            · have hxz : x < z := by omega
              simp [hxz]
            · by_cases hzy : z < y
              · simp [hyz, hzy] at h2
              · simp [hyz, hzy] at h2
                have hxz : ¬ x < z := by omega
                have hzx : ¬ z < x := by omega
                simp [hxz, hzx]
                exact ih h1 h2

theorem semverLe_refl (a : String) : semverLe a a = true :=
  verLe_refl (parseSemver a)

theorem semverLe_total (a b : String) :
    semverLe a b = true ∨ semverLe b a = true :=
  verLe_total (parseSemver a) (parseSemver b)

theorem semverLe_trans {a b c : String} (h1 : semverLe a b = true)
    (h2 : semverLe b c = true) : semverLe a c = true :=
  verLe_trans h1 h2

theorem pickLatest_mem {l : List CatalogEntry} {e : CatalogEntry}
    (h : pickLatest l = some e) : e ∈ l := by
  induction l generalizing e with
  | nil => simp [pickLatest] at h
  | cons a rest ih =>
    simp only [pickLatest] at h
    cases hr : pickLatest rest with
    | none =>
      rw [hr] at h
      simp at h
      rw [← h]
      exact List.mem_cons_self a rest
    | some best =>
      rw [hr] at h
      by_cases hle : semverLe a.manifest.version best.manifest.version = true
      · simp [hle] at h
        rw [← h]
        exact List.mem_cons_of_mem a (ih hr)
      · simp [hle] at h
        rw [← h]
        exact List.mem_cons_self a rest

theorem pickLatest_none {l : List CatalogEntry} (h : pickLatest l = none) :
    l = [] := by
  cases l with
  | nil => rfl
  | cons b bs =>
    simp only [pickLatest] at h
    cases hb : pickLatest bs with
    | none =>
      rw [hb] at h
      simp at h
    | some best =>
      rw [hb] at h
      by_cases hle : semverLe b.manifest.version best.manifest.version = true
      · simp [hle] at h
      · simp [hle] at h

theorem pickLatest_max {l : List CatalogEntry} {e : CatalogEntry}
    (h : pickLatest l = some e) :
    ∀ x ∈ l, semverLe x.manifest.version e.manifest.version = true := by
  induction l generalizing e with
  | nil => simp [pickLatest] at h
  | cons a rest ih =>
    intro x hx
    simp only [pickLatest] at h
    cases hr : pickLatest rest with
    | none =>
      rw [hr] at h
      simp at h
      have hrest : rest = [] := pickLatest_none hr
      rw [hrest] at hx
      simp at hx
      rw [hx, ← h]
      exact semverLe_refl _
    | some best =>
      rw [hr] at h
      by_cases hle : semverLe a.manifest.version best.manifest.version = true
      · simp [hle] at h
        rcases List.mem_cons.mp hx with hxa | hxr
        · rw [hxa, ← h]
          exact hle
        · rw [← h]
          exact ih hr x hxr
      · simp [hle] at h
        rcases List.mem_cons.mp hx with hxa | hxr
        · rw [hxa, ← h]
          exact semverLe_refl _
        · have hxb := ih hr x hxr
          have hba : semverLe best.manifest.version a.manifest.version = true := by
            rcases semverLe_total a.manifest.version best.manifest.version with ht | ht
            · exact absurd ht hle
            · exact ht
          rw [← h]
          exact semverLe_trans hxb hba

theorem pull_ok_sound {cat : List CatalogEntry} {name : String}
    {e : CatalogEntry} (hok : pull cat name none = Except.ok e) :
    e ∈ cat ∧ e.manifest.name = name ∧
    ∀ x ∈ cat, x.manifest.name = name →
      semverLe x.manifest.version e.manifest.version = true := by
  simp only [pull] at hok
  cases hpl : pickLatest (cat.filter (fun e => e.manifest.name == name)) with
  | none =>
    rw [hpl] at hok
    simp at hok
  | some best =>
    rw [hpl] at hok
    simp at hok
    rw [← hok]
    have hmem := pickLatest_mem hpl
    have hbest := List.mem_filter.mp hmem
    refine ⟨hbest.1, by simpa using hbest.2, ?_⟩
    intro x hx hxname
    refine pickLatest_max hpl x ?_
    rw [List.mem_filter]
    exact ⟨hx, by simpa using hxname⟩

/-- C8: pull with no requested version, on a name under which at least one
entry is published, succeeds and returns an entry for that name whose
semantic version is highest among all entries for that name; any
successful versionless pull has that form; and pull of a name with no
catalog entry fails with imageNotFound, with or without a requested
version. -/
theorem pull_spec (cat : List CatalogEntry) (name : String) :
    ((∀ e ∈ cat, e.manifest.name ≠ name) →
      ∀ reqVersion, pull cat name reqVersion = Except.error Failure.imageNotFound) ∧
    ((∃ e ∈ cat, e.manifest.name = name) →
      ∃ e, pull cat name none = Except.ok e ∧ e ∈ cat ∧
        e.manifest.name = name ∧
        ∀ x ∈ cat, x.manifest.name = name →
          semverLe x.manifest.version e.manifest.version = true) ∧
    (∀ e, pull cat name none = Except.ok e →
      e ∈ cat ∧ e.manifest.name = name ∧
      ∀ x ∈ cat, x.manifest.name = name →
        semverLe x.manifest.version e.manifest.version = true) := by
  refine ⟨?_, ?_, fun e hok => pull_ok_sound hok⟩
  · intro hnone reqVersion
    have hc : cat.filter (fun e => e.manifest.name == name) = [] := by
      rw [List.filter_eq_nil_iff]
      intro a ha
      simpa using hnone a ha
    cases reqVersion with
    | none => simp [pull, hc, pickLatest]
    | some v => simp [pull, hc]
  · rintro ⟨w, hw, hwname⟩
    have hwf : w ∈ cat.filter (fun e => e.manifest.name == name) := by
      rw [List.mem_filter]
      exact ⟨hw, by simpa using hwname⟩
    cases hpl : pickLatest (cat.filter (fun e => e.manifest.name == name)) with
    | none =>
      rw [pickLatest_none hpl] at hwf
      simp at hwf
    | some best =>
      have hbok : pull cat name none = Except.ok best := by
        simp [pull, hpl]
      obtain ⟨hb1, hb2, hb3⟩ := pull_ok_sound hbok
      exact ⟨best, hbok, hb1, hb2, hb3⟩

end Hub

/-- C9: after BaseTransformer construction, required_keys is exactly the
set of argument names of the instance's transform method with self
excluded, and the warning is emitted exactly when that set is empty, with
construction completing either way. -/
theorem Transformers.requiredKeys_spec (transformArgs : List String) :
    (∀ k, k ∈ (Transformers.init transformArgs).required_keys ↔
      (k ∈ transformArgs ∧ k ≠ "self")) ∧
    (Transformers.init transformArgs).warned =
      (Transformers.init transformArgs).required_keys.isEmpty := by
  constructor
  · intro k
    simp [Transformers.init, List.mem_filter]
  · rfl

/-- C10: loading a yaml executor configuration whose external class tag is
not registered raises a constructor error rather than returning an
executor, while loading the configuration for a registered external class
returns an instance whose class name is that class. -/
theorem Jaml.load_config_external (registry : List String) (tag : String) :
    (tag ∉ registry →
      Jaml.load_config registry tag =
        Except.error Jaml.LoadError.constructorError) ∧
    (tag ∈ registry →
      ∃ ex, Jaml.load_config registry tag = Except.ok ex ∧
        ex.className = tag) := by
  constructor
  · intro h
    simp [Jaml.load_config, h]
  · intro h
    exact ⟨{ className := tag }, by simp [Jaml.load_config, h], rfl⟩

/-- Sample manifest mirroring the hub-mwu test fixture. -/
def mwuManifest : Hub.Manifest :=
  { name := "dummy_mwu_encoder"
    version := "0.0.6"
    description := "a minimum working unit encoder"
    author := "dev team"
    vendor := "jina"
    kind := "pod"
    type := "encoder"
    keywords := ["mwu", "encoder"] }

/-- Sample valid artifact directory. -/
def goodDir : Hub.ArtifactDir :=
  { hasDockerfile := true, dockerfileValid := true, hasManifest := true
    manifestValid := true, rawManifest := mwuManifest
    modulesBuildOk := true, startsOk := true }

/-- Sample valid directory whose image fails to start. -/
def failStartDir : Hub.ArtifactDir :=
  { goodDir with startsOk := false }

/-- Sample directory with the build recipe missing. -/
def noDockerDir : Hub.ArtifactDir :=
  { goodDir with hasDockerfile := false }

/-- Build flags with every flag off. -/
def offArgs : Hub.BuildArgs :=
  { push := false, testUses := false, daemon := false
    raiseError := false, hostInfo := false, noOverwrite := false }

/-- Build flags requesting a push. -/
def pushArgs : Hub.BuildArgs :=
  { offArgs with push := true }

/-- Build flags requesting a push with overwrite disallowed. -/
def conflictArgs : Hub.BuildArgs :=
  { offArgs with push := true, noOverwrite := true }

/-- Build flags requesting a usage test. -/
def testArgs : Hub.BuildArgs :=
  { offArgs with testUses := true }

/-- A pre-existing catalog entry at the sample image identity. -/
def mwuEntry : Hub.CatalogEntry :=
  { identity := Hub.mkIdentity "jinahub" (Hub.expandManifest [] mwuManifest)
    manifest := Hub.expandManifest [] mwuManifest
    timestamp := 0, hostInfo := false }

theorem build_roundtrip_witness :
    (Hub.successSummary (Hub.expandManifest [] mwuManifest)).version =
      (Hub.expandManifest [] mwuManifest).version :=
  (Hub.build_roundtrip [] "jinahub" goodDir offArgs [] 0
    (Hub.successSummary (Hub.expandManifest [] mwuManifest)) rfl rfl).1

theorem build_noOverwrite_conflict_witness :
    (Hub.build [] "jinahub" goodDir conflictArgs [mwuEntry] 5).pushAttempted =
      false ∧
    (Hub.build [] "jinahub" goodDir conflictArgs [mwuEntry] 5).catalog =
      [mwuEntry] :=
  ⟨(Hub.build_noOverwrite_conflict [] "jinahub" goodDir conflictArgs [mwuEntry] 5
      (Hub.expandManifest [] mwuManifest) rfl (fun _ => rfl) rfl rfl (by decide)).2.2.1,
   (Hub.build_noOverwrite_conflict [] "jinahub" goodDir conflictArgs [mwuEntry] 5
      (Hub.expandManifest [] mwuManifest) rfl (fun _ => rfl) rfl rfl (by decide)).2.2.2.1⟩

theorem build_idempotent_witness :
    (Hub.build [] "jinahub" goodDir offArgs
        (Hub.build [] "jinahub" goodDir offArgs [] 0).catalog 1).summary =
      Except.ok (Hub.successSummary (Hub.expandManifest [] mwuManifest)) :=
  (Hub.build_idempotent [] "jinahub" goodDir offArgs [] 0 1
    (Hub.successSummary (Hub.expandManifest [] mwuManifest)) rfl rfl rfl).1

theorem publish_idempotent_witness :
    (Hub.build [] "jinahub" goodDir pushArgs [] 0).summary =
      Except.ok (Hub.successSummary (Hub.expandManifest [] mwuManifest)) :=
  (Hub.publish_idempotent [] "jinahub" goodDir pushArgs [] 0 1
    (Hub.expandManifest [] mwuManifest) rfl (fun _ => rfl) rfl rfl).1

theorem build_failures_witness :
    (Hub.build [] "jinahub" noDockerDir offArgs [] 0).summary =
      Except.ok (Hub.failSummary Hub.Failure.dockerfileMissing) ∧
    (Hub.build [] "jinahub" noDockerDir offArgs [] 0).imageProduced = false :=
  (Hub.build_failures [] "jinahub" noDockerDir offArgs [] 0 rfl).1 rfl

theorem build_testUses_independent_witness :
    (Hub.build [] "jinahub" failStartDir testArgs [] 1).imageProduced = true :=
  (Hub.build_testUses_independent [] "jinahub" failStartDir offArgs testArgs [] 0 1
    (Hub.expandManifest [] mwuManifest) rfl rfl rfl rfl rfl rfl).2.2

theorem pull_spec_witness :
    Hub.pull [mwuEntry] (Hub.expandManifest [] mwuManifest).name none =
      Except.ok mwuEntry := by
  obtain ⟨e, he, -, -, -⟩ :=
    (Hub.pull_spec [mwuEntry] (Hub.expandManifest [] mwuManifest).name).2.1
      ⟨mwuEntry, List.mem_cons_self mwuEntry [], rfl⟩
  have hee : e = mwuEntry := Except.ok.inj (he.symm.trans (by rfl))
  exact hee ▸ he
